import Mathlib

/-!
Verification of the `dll_hook` example of the patternsleuth repository
(`examples/dll_hook/src/hooks.rs` and `examples/dll_hook/src/lib.rs`)
against its natural-language specification.

The development shallowly embeds the relevant Rust code:

* the `event!` macro's per-channel state (`Mutex<Vec<Weak<Listener>>>`)
  together with its `register` and `call` operations,
* the lock-hold structure of `call` (the `MutexGuard` obtained by
  `get().lock().unwrap()` lives for the whole `retain`, i.e. across the
  execution of every invoked listener),
* the `UGameEngineTick` hook handler's guard discipline around
  `GUOBJECT_LOCK`,
* the control flow of `initialize` / `patch` (error propagation by `?`,
  the `get("PrintString").unwrap()` lookup, `assert_main_thread!`),
* the `HookAllocateUObject` / `HookFreeUObject` handlers' event ordering,
* the `HookKismetPrintString` handler's final cursor advance,
* the `GLOBALS` static and its accessors.

Listeners are identified by natural numbers; `Arc` strong counts are an
explicit `Nat`-valued map; raw pointers are naturals with `0` for null.
-/

namespace DllHook

/-! ## Event channels (`event!` macro, hooks.rs lines 18–44)

A channel's state is the `Vec<Weak<Listener>>` behind its mutex, in
registration order, plus the strong reference counts that the rest of the
program holds for each listener (`Arc` semantics).  A weak reference
upgrades successfully exactly when the listener's strong count is
positive. -/

structure ChannelState where
  subs : List Nat
  strong : Nat → Nat

/-- Whether `Weak::upgrade` succeeds for listener `f`: some owner still
holds a strong reference. -/
def live (st : ChannelState) (f : Nat) : Bool := decide (0 < st.strong f)

/-- `register` (hooks.rs lines 28–31): pushes `Arc::downgrade(&listener)`
onto the vector — the strong counts are untouched, the channel holds only
the weak reference — and returns the listener `Arc` itself to the caller. -/
def register (st : ChannelState) (l : Nat) : ChannelState × Nat :=
  ({ st with subs := st.subs ++ [l] }, l)

/-- An owner drops its strong handle for listener `l`: the strong count of
`l` decreases by one. -/
def dropHandle (st : ChannelState) (l : Nat) : ChannelState :=
  { st with strong := fun x => if x = l then st.strong x - 1 else st.strong x }

/-- `call(args)` (hooks.rs lines 32–41): `retain` walks the vector front to
back; a weak entry that upgrades is invoked with `args` and kept, a dead
entry is removed.  Result: the retained vector and the sequence of
invocations `(listener, args)` in the order they happened. -/
def callModel (args : Nat) (liv : Nat → Bool) : List Nat → List Nat × List (Nat × Nat)
  | [] => ([], [])
  | f :: rest =>
    let r := callModel args liv rest
    if liv f then (f :: r.1, (f, args) :: r.2) else r

/-! ## Lock-hold structure of `call` (hooks.rs lines 32–41)

`call` is `get().lock().unwrap().retain(|f| ...)` : the `MutexGuard`
returned by `lock()` is a temporary of the whole statement, so the
channel's `std::sync::Mutex` is acquired before `retain` starts and
released only after `retain` — and with it every listener invocation —
has finished. -/

/-- One `call`'s lock events in order: the mutex is acquired, then each
live listener runs, then the guard is dropped. -/
inductive LockEvent where
  | acquire
  | invoke (f : Nat)
  | release
  deriving DecidableEq

/-- The sequence of lock events produced by `call` (hooks.rs lines
32–41): `acquire` from `get().lock().unwrap()`, the invocations of the
live listeners inside `retain`, and the guard drop at the end of the
statement. -/
def callLockTrace (liv : Nat → Bool) (subs : List Nat) : List LockEvent :=
  LockEvent.acquire :: ((subs.filter liv).map LockEvent.invoke ++ [LockEvent.release])

/-- Result of a `call` in which some listeners are re-entrant (they run
`call` or `register` on the same channel, i.e. `lock()` the channel's
mutex themselves).  `std::sync::Mutex` is not re-entrant: a `lock()` by
the thread already holding the guard does not return, modelled as
`deadlock`. -/
inductive CallResult where
  | completed (retained : List Nat)
  | deadlock
  deriving DecidableEq

/-- `call` where `reent f` says listener `f` re-entrantly locks the same
channel.  The walk is the `retain` of hooks.rs lines 33–40; invoking a
live re-entrant listener hits the already-held mutex. -/
def callReentrant (reent liv : Nat → Bool) : List Nat → CallResult
  | [] => .completed []
  | f :: rest =>
    if liv f then
      if reent f then .deadlock
      else
        match callReentrant reent liv rest with
        | .completed k => .completed (f :: k)
        | .deadlock => .deadlock
    else callReentrant reent liv rest

/-! ## GUOBJECT_LOCK discipline in the tick handler

hooks.rs lines 51–52: `GUOBJECT_LOCK` is a `static mut
Option<FairMutexGuard>` over the GUObjectArray fair mutex.  The
`HookUGameEngineTick` handler (lines 61–69) runs on the main thread and
does, in order: `GUOBJECT_LOCK.take()` (the guard drops — release),
`HookUGameEngineTick.call(...)` (forward to the original), and
`GUOBJECT_LOCK = Some(globals().guobject_array.lock())` (reacquire).
The lock state is whether the main thread currently holds the guard; a
`parking_lot::FairMutex` is not re-entrant, so acquiring while already
held by the same thread never returns (`none`). -/

/-- Lock operations of a hypothetical hook that is re-entered from inside
the original tick call and needs the same guard. -/
inductive HInstr where
  | hAcquire
  | hRelease
  deriving DecidableEq

/-- Run a re-entered hook's lock operations against the current lock
state; acquiring a lock this thread already holds deadlocks (`none`). -/
def runInnerHook : List HInstr → Bool → Option Bool
  | [], held => some held
  | .hAcquire :: rest, held => if held then none else runInnerHook rest true
  | .hRelease :: rest, _ => runInnerHook rest false

/-- A re-entered hook that needs the same guard: acquire then release. -/
def reentrantHook : List HInstr := [HInstr.hAcquire, HInstr.hRelease]

/-- The three steps of the tick handler's body (hooks.rs lines 66–68). -/
inductive TickInstr where
  | releaseGuard
  | callOriginal (inner : Option (List HInstr))
  | acquireGuard
  deriving DecidableEq

/-- The tick handler's body, parameterised by the hook (if any) that the
original call re-enters: `GUOBJECT_LOCK.take()`, then
`HookUGameEngineTick.call(...)`, then relock (hooks.rs lines 66–68). -/
def tickBody (inner : Option (List HInstr)) : List TickInstr :=
  [TickInstr.releaseGuard, TickInstr.callOriginal inner, TickInstr.acquireGuard]

/-- Execute tick-handler steps against the guard state (`true` = the
main thread holds the GUObjectArray guard); `none` is a self-deadlock. -/
def execTick : List TickInstr → Bool → Option Bool
  | [], held => some held
  | .releaseGuard :: rest, _ => execTick rest false
  | .acquireGuard :: rest, held => if held then none else execTick rest true
  | .callOriginal none :: rest, held => execTick rest held
  | .callOriginal (some inner) :: rest, held =>
    match runInnerHook inner held with
    | some h2 => execTick rest h2
    | none => none

/-! ## Scoped guard pairing

lib.rs lines 194–196: `guobject_array()` returns the scoped
`FairMutexGuard` of `globals().guobject_array.lock()`.  Rust drop
semantics release the guard exactly once when it goes out of scope, on
every exit path of the critical section: normal completion, early
return, an error propagated with `?`, or an unwinding panic. -/

/-- How the work done under the guard exits its scope. -/
inductive WorkExit where
  | retOk
  | retEarly
  | errProp
  | panicked
  deriving DecidableEq

/-- Counters of lock operations performed on the GUObjectArray mutex. -/
structure LockCounters where
  acquires : Nat
  releases : Nat
  deriving DecidableEq

/-- `guobject_array()` — one `lock()` on the fair mutex. -/
def acquireGuardOp (c : LockCounters) : LockCounters :=
  { c with acquires := c.acquires + 1 }

/-- Dropping the returned `FairMutexGuard` — one unlock. -/
def releaseGuardOp (c : LockCounters) : LockCounters :=
  { c with releases := c.releases + 1 }

/-- A critical section `acquire → work → exit`: the scope acquires via
`guobject_array()` and, whichever way `work` exits, drops the guard on
the way out (Rust scope-exit drop runs on return, `?` propagation and
unwind alike). -/
def withGuobjectGuard (c : LockCounters) (work : WorkExit) : LockCounters × WorkExit :=
  let c1 := acquireGuardOp c
  match work with
  | .retOk => (releaseGuardOp c1, .retOk)
  | .retEarly => (releaseGuardOp c1, .retEarly)
  | .errProp => (releaseGuardOp c1, .errProp)
  | .panicked => (releaseGuardOp c1, .panicked)

/-! ## Startup control flow: `patch` (lib.rs 201–231) and `initialize`
(hooks.rs 54–154)

`patch` resolves all addresses through the try-collector (`?` on
`exe.resolve`), stores `GLOBALS`, then runs `hooks::initialize()?`.
`initialize` asserts the main thread, then for each hook runs
`Hook.initialize(addr, handler)?` followed by `Hook.enable()?`; the
PrintString address is additionally looked up in the resolved
KismetSystemLibrary map with `.get("PrintString").unwrap()` — a panic
when the entry is absent, not a propagated error. -/

/-- The fields of the resolved-address table that the embedded control
flow consults (`DllHookResolution`, lib.rs 157–174).  Addresses are
opaque naturals; the KismetSystemLibrary resolution is a name → address
map. -/
structure Resolution where
  gameTick : Nat
  allocateUObject : Nat
  freeUObject : Nat
  kismetSystemLibrary : List (String × Nat)
  fframeKismetExecutionMessage : Nat
  guobjectArray : Nat
  deriving DecidableEq

/-- Environment of externally-determined results consumed by `patch` /
`initialize`: the try-collector's outcome (a structured error names the
symbol that failed to resolve) and each hook's
`initialize(...)?; enable()?` outcome from the detour library. -/
structure HookEnv where
  resolve : Except String Resolution
  installTick : Except String Unit
  installAlloc : Except String Unit
  installFree : Except String Unit
  installPrint : Except String Unit
  installExecMsg : Except String Unit

/-- How a startup entry point terminates: normal return, a structured
error propagated to the caller (`Err` of `anyhow`), or a panic. -/
inductive Outcome where
  | ok
  | err (msg : String)
  | panic
  deriving DecidableEq

/-- Whether the outcome is a structured error value returned to the
caller (as opposed to success or a panic/abort). -/
def isStructuredError : Outcome → Bool
  | .err _ => true
  | _ => false

/-- `assert_main_thread!` (lib.rs 182–187):
`assert_eq!(std::thread::current().id(), globals().main_thread_id)` —
proceeds when they agree, panics otherwise. -/
inductive ThreadCheck where
  | proceed
  | panicked
  deriving DecidableEq

/-- The thread-affinity assertion outcome. -/
def assertMainThread (cur main : Nat) : ThreadCheck :=
  if cur = main then ThreadCheck.proceed else ThreadCheck.panicked

/-- `Hook.initialize(..)?; Hook.enable()?` — a failing step propagates
its error, a succeeding one continues with `k`. -/
def stepInstall (r : Except String Unit) (k : Outcome) : Outcome :=
  match r with
  | .error e => Outcome.err e
  | .ok _ => k

/-- `hooks::initialize` (hooks.rs 54–154): `assert_main_thread!`, then in
source order the tick, allocate, free, PrintString and execution-message
hooks; before the PrintString hook is installed its address is fetched
with `.get("PrintString").unwrap()` which panics when missing. -/
def initializeModel (cur main : Nat) (res : Resolution) (env : HookEnv) : Outcome :=
  match assertMainThread cur main with
  | ThreadCheck.panicked => Outcome.panic
  | ThreadCheck.proceed =>
    stepInstall env.installTick
      (stepInstall env.installAlloc
        (stepInstall env.installFree
          (match res.kismetSystemLibrary.lookup "PrintString" with
           | none => Outcome.panic
           | some _ =>
             stepInstall env.installPrint
               (stepInstall env.installExecMsg Outcome.ok))))

/-- `patch` (lib.rs 201–231): `exe.resolve(...)?` propagates the
structured resolver error; on success `GLOBALS` is filled with the
current thread as main thread and `hooks::initialize()?` runs on that
same thread. -/
def patchModel (tid : Nat) (env : HookEnv) : Outcome :=
  match env.resolve with
  | .error s => Outcome.err s
  | .ok res => initializeModel tid tid res env

/-- Outcome of one run of the tick-hook handler. -/
inductive TickOutcome where
  | panicked
  | deadlocked
  | done (held : Bool)
  deriving DecidableEq

/-- The `HookUGameEngineTick` handler (hooks.rs 61–69):
`assert_main_thread!` first, then the release / forward / reacquire body
executed against the guard state. -/
def tickHandlerModel (cur main : Nat) (inner : Option (List HInstr)) (held : Bool) :
    TickOutcome :=
  match assertMainThread cur main with
  | ThreadCheck.panicked => TickOutcome.panicked
  | ThreadCheck.proceed =>
    match execTick (tickBody inner) held with
    | none => TickOutcome.deadlocked
    | some h => TickOutcome.done h

/-- A resolution whose KismetSystemLibrary map has no "PrintString"
entry. -/
def resNoPrint : Resolution := ⟨1, 2, 3, [], 4, 5⟩

/-- Environment where every resolver and every detour step succeeds but
the KismetSystemLibrary map is missing "PrintString". -/
def envNoPrint : HookEnv :=
  ⟨Except.ok resNoPrint, Except.ok (), Except.ok (), Except.ok (), Except.ok (), Except.ok ()⟩

/-- A fully successful resolution, "PrintString" present. -/
def resOkM : Resolution := ⟨1, 2, 3, [("PrintString", 9)], 4, 5⟩

/-- Environment where everything succeeds. -/
def envAllOk : HookEnv :=
  ⟨Except.ok resOkM, Except.ok (), Except.ok (), Except.ok (), Except.ok (), Except.ok ()⟩

/-! ## Object events from the allocate/free hooks

The `HookAllocateUObject` handler (hooks.rs 73–85) first forwards to the
original allocation (`HookAllocateUObject.call(..)`) and only then
publishes the created event (`object_cache::object_created`,
`create_uobject::call`).  The `HookFreeUObject` handler (hooks.rs
88–101) publishes the deleted event (`object_cache::object_deleted`,
`delete_uobject::call`) and only then forwards to the original free
(`HookFreeUObject.call(..)`). -/

/-- An operation the host performs through the hooked allocator, on an
object reference. -/
inductive HostOp where
  | alloc (r : Nat)
  | free (r : Nat)
  deriving DecidableEq

/-- The observable sub-steps: the original functions completing and the
events this system publishes. -/
inductive ObjEvent where
  | origAlloc (r : Nat)
  | created (r : Nat)
  | deleted (r : Nat)
  | origFree (r : Nat)
  deriving DecidableEq

/-- The event trace the two handlers produce for a host operation
sequence: per allocation, original-then-created; per free,
deleted-then-original (hooks.rs 75–84 and 90–99). -/
def hookTrace : List HostOp → List ObjEvent
  | [] => []
  | HostOp.alloc r :: rest => ObjEvent.origAlloc r :: ObjEvent.created r :: hookTrace rest
  | HostOp.free r :: rest => ObjEvent.deleted r :: ObjEvent.origFree r :: hookTrace rest

/-- Well-formedness of the host's operation sequence given the already
allocated references `A`: the host only frees a reference it previously
allocated (the allocator contract assumed of the hooked functions). -/
def wfFrom (A : List Nat) : List HostOp → Bool
  | [] => true
  | HostOp.alloc r :: rest => wfFrom (r :: A) rest
  | HostOp.free r :: rest => A.contains r && wfFrom A rest

/-! ## The PrintString handler's cursor advance (hooks.rs 112–136)

After parsing its six arguments (via `ue::kismet::arg`, outside this
core), the handler additionally advances the kismet execution cursor:
`if !stack.code.is_null() { stack.code = stack.code.add(1); }`. -/

/-- The kismet stack frame's execution cursor, a raw pointer modelled as
a natural with `0` for null. -/
structure FFrame where
  code : Nat
  deriving DecidableEq

/-- The handler's own cursor update (hooks.rs lines 133–135): advance by
one exactly when the cursor is non-null. -/
def printStringCursorStep (stack : FFrame) : FFrame :=
  if stack.code ≠ 0 then { stack with code := stack.code + 1 } else stack

/-! ## The `GLOBALS` static (lib.rs 176–199, 213–217)

`static mut GLOBALS: Option<Globals> = None` holds the resolution table
and the recorded main-thread identity; `globals()` is
`GLOBALS.as_ref().unwrap()` and `guobject_array()` goes through
`globals()`.  `patch` is the only writer (line 213). -/

/-- The `Globals` fields relevant here (lib.rs 176–180). -/
structure GlobalsM where
  resolution : Resolution
  mainThreadId : Nat
  deriving DecidableEq

/-- Result of reading the process-wide context. -/
inductive GlobalsRead where
  | panicNone
  | value (g : GlobalsM)
  deriving DecidableEq

/-- `globals()` (lib.rs 191–193): `unwrap` of the static — panics while
it is `None`, returns the context afterwards. -/
def globalsFn : Option GlobalsM → GlobalsRead
  | none => GlobalsRead.panicNone
  | some g => GlobalsRead.value g

/-- `guobject_array()` (lib.rs 194–196): calls `globals()` first, so it
panics on `None` exactly as `globals()` does. -/
def guobjectArrayFn (gs : Option GlobalsM) : GlobalsRead :=
  match globalsFn gs with
  | GlobalsRead.panicNone => GlobalsRead.panicNone
  | GlobalsRead.value g => GlobalsRead.value g

/-- The operations of the program that run against the statics:
`patch`'s one-time write of `GLOBALS` (lib.rs 213) and the hook
handlers / channel operations, none of which write `GLOBALS`. -/
inductive ProgOp where
  | patchOp (res : Resolution) (tid : Nat)
  | tickOp
  | allocHookOp
  | freeHookOp
  | printHookOp
  | execMsgHookOp
  | registerOp (l : Nat)
  | callOp
  deriving DecidableEq

/-- The mutable statics the operations touch. -/
structure ProgState where
  globals : Option GlobalsM
  guobjectLockHeld : Bool
  deriving DecidableEq

/-- Effect of each operation on the statics; `none` is a panic.  The
tick handler reads `globals()` (panicking on `None`) and ends with
`GUOBJECT_LOCK` re-filled; only `patchOp` writes `GLOBALS`. -/
def stepGlobals : ProgOp → ProgState → Option ProgState
  | ProgOp.patchOp res tid, st => some { st with globals := some ⟨res, tid⟩ }
  | ProgOp.tickOp, st =>
    match st.globals with
    | none => none
    | some _ => some { st with guobjectLockHeld := true }
  | _, st => some st

/-! # Theorems -/

theorem callModel_fst (args : Nat) (liv : Nat → Bool) (subs : List Nat) :
    (callModel args liv subs).1 = subs.filter liv := by
  induction subs with
  | nil => rfl
  | cons f rest ih =>
    by_cases h : liv f = true
    · simp [callModel, h, List.filter_cons, ih]
    · simp only [Bool.not_eq_true] at h
      simp [callModel, h, List.filter_cons, ih]

theorem callModel_snd (args : Nat) (liv : Nat → Bool) (subs : List Nat) :
    (callModel args liv subs).2 = (subs.filter liv).map (fun f => (f, args)) := by
  induction subs with
  | nil => rfl
  | cons f rest ih =>
    by_cases h : liv f = true
    · simp [callModel, h, List.filter_cons, ih]
    · simp only [Bool.not_eq_true] at h
      simp [callModel, h, List.filter_cons, ih]

/-- A listener whose weak reference is dead is neither kept in the
retained vector nor invoked by `call`. -/
theorem callModel_dead_pruned (args : Nat) (liv : Nat → Bool) (subs : List Nat)
    (f : Nat) (hf : liv f = false) :
    f ∉ (callModel args liv subs).1 ∧ ∀ a, (f, a) ∉ (callModel args liv subs).2 := by
  constructor
  · rw [callModel_fst]
    intro hmem
    have := List.of_mem_filter hmem
    rw [hf] at this
    exact Bool.false_ne_true this
  · intro a hmem
    rw [callModel_snd] at hmem
    obtain ⟨x, hx, hxe⟩ := List.mem_map.mp hmem
    have hxf : x = f := congrArg Prod.fst hxe
    subst hxf
    have := List.of_mem_filter hx
    rw [hf] at this
    exact Bool.false_ne_true this

/-- C1: `call(args)` iterates the current subscribers in registration
order on the calling thread; every listener whose weak reference is live
is invoked exactly once with `args`, every dead listener is removed from
the vector during that same call, and of two live listeners the one
registered first is invoked first. -/
theorem c1_call_invokes_live_in_order (args : Nat) (liv : Nat → Bool) (subs : List Nat) :
    (callModel args liv subs).1 = subs.filter liv
    ∧ (callModel args liv subs).2 = (subs.filter liv).map (fun f => (f, args))
    ∧ (∀ f, liv f = true →
        (((callModel args liv subs).2).map Prod.fst).count f = subs.count f)
    ∧ (∀ f, liv f = false →
        f ∉ (callModel args liv subs).1 ∧ ∀ a, (f, a) ∉ (callModel args liv subs).2)
    ∧ (∀ pre l1 mid l2 post, subs = pre ++ l1 :: (mid ++ l2 :: post) →
        liv l1 = true → liv l2 = true →
        (callModel args liv subs).2 =
          (pre.filter liv).map (fun f => (f, args)) ++ (l1, args) ::
            ((mid.filter liv).map (fun f => (f, args)) ++ (l2, args) ::
              (post.filter liv).map (fun f => (f, args)))) := by
  refine ⟨callModel_fst args liv subs, callModel_snd args liv subs, ?_, ?_, ?_⟩
  · intro f hf
    rw [callModel_snd]
    simp only [List.map_map]
    have hid : (Prod.fst ∘ fun f : Nat => (f, args)) = id := rfl
    rw [hid, List.map_id, List.count_filter hf]
  · intro f hf
    exact callModel_dead_pruned args liv subs f hf
  · intro pre l1 mid l2 post hsubs h1 h2
    subst hsubs
    rw [callModel_snd]
    simp [List.filter_append, List.filter_cons, h1, h2]

/-- Concrete instance of `c1_call_invokes_live_in_order`: subscribers
`[5, 6, 7]` with `6` dead; the call invokes `5` then `7` with the
argument and prunes `6`. -/
theorem c1_call_invokes_live_in_order_witness :
    (((callModel 9 (fun f => decide (f ≠ 6)) [5, 6, 7]).2).map Prod.fst).count 7 = [5, 6, 7].count 7
    ∧ (6 ∉ (callModel 9 (fun f => decide (f ≠ 6)) [5, 6, 7]).1)
    ∧ (callModel 9 (fun f => decide (f ≠ 6)) [5, 6, 7]).2 =
        List.map (fun f => (f, 9)) (List.filter (fun f => decide (f ≠ 6)) []) ++ (5, 9) ::
          (List.map (fun f => (f, 9)) (List.filter (fun f => decide (f ≠ 6)) [6]) ++ (7, 9) ::
            List.map (fun f => (f, 9)) (List.filter (fun f => decide (f ≠ 6)) [])) :=
  ⟨(c1_call_invokes_live_in_order 9 (fun f => decide (f ≠ 6)) [5, 6, 7]).2.2.1 7 (by decide),
   ((c1_call_invokes_live_in_order 9 (fun f => decide (f ≠ 6)) [5, 6, 7]).2.2.2.1 6
      (by decide)).1,
   (c1_call_invokes_live_in_order 9 (fun f => decide (f ≠ 6)) [5, 6, 7]).2.2.2.2
      [] 5 [6] 7 [] rfl (by decide) (by decide)⟩

/-- C4: `register(listener)` stores only a weak reference in the channel
(the strong counts are exactly those before the call — the channel never
extends a listener's lifetime) and returns the strong owning handle to
the caller; once the sole owner drops that handle the listener is dead,
and a subsequent `call` neither invokes it nor keeps it in the list. -/
theorem c4_register_stores_weak_only (st : ChannelState) (l : Nat) (args : Nat)
    (hone : st.strong l = 1) :
    (register st l).1.subs = st.subs ++ [l]
    ∧ (register st l).1.strong = st.strong
    ∧ (register st l).2 = l
    ∧ live (dropHandle (register st l).1 l) l = false
    ∧ (∀ st2 : ChannelState, st2.strong l = 0 →
        (∀ a, (l, a) ∉ (callModel a (live st2) st2.subs).2)
        ∧ l ∉ (callModel args (live st2) st2.subs).1) := by
  refine ⟨rfl, rfl, rfl, ?_, ?_⟩
  · simp [live, dropHandle, register, hone]
  · intro st2 hdead
    have hlive : live st2 l = false := by
      simp [live, hdead]
    constructor
    · intro a
      exact (callModel_dead_pruned a (live st2) st2.subs l hlive).2 a
    · exact (callModel_dead_pruned args (live st2) st2.subs l hlive).1

/-- Concrete instance of `c4_register_stores_weak_only`: listener `7`
with one strong owner; register leaves the strong counts untouched, and
after the owner drops its handle the listener is dead. -/
theorem c4_register_stores_weak_only_witness :
    (register ⟨[], fun x => if x = 7 then 1 else 0⟩ 7).1.strong =
        (fun x => if x = 7 then 1 else 0)
    ∧ live (dropHandle (register ⟨[], fun x => if x = 7 then 1 else 0⟩ 7).1 7) 7 = false :=
  ⟨(c4_register_stores_weak_only ⟨[], fun x => if x = 7 then 1 else 0⟩ 7 3 (by decide)).2.1,
   (c4_register_stores_weak_only ⟨[], fun x => if x = 7 then 1 else 0⟩ 7 3
      (by decide)).2.2.2.1⟩

/-- C2 counterexample: with a single live listener that re-enters the
channel, `call` deadlocks, and the lock trace shows the listener invoked
strictly between `acquire` and `release` — the channel mutex is held
across listener execution, not only for the bookkeeping step. -/
theorem c2_reentrant_call_cex :
    callReentrant (fun _ => true) (fun _ => true) [0] = CallResult.deadlock
    ∧ callLockTrace (fun _ => true) [0] =
        [LockEvent.acquire, LockEvent.invoke 0, LockEvent.release] := by
  constructor
  · rfl
  · rfl

/-- C2 amended: `call` holds the channel's internal mutex across the
execution of every listener (all invocations sit strictly between the
one `acquire` and the one `release` of the trace), and because the mutex
is not re-entrant, a live listener that triggers another `call` or
`register` on the same channel deadlocks instead of completing. -/
theorem c2_lock_held_across_listeners (reent liv : Nat → Bool) (subs : List Nat)
    (h : ∃ f ∈ subs, liv f = true ∧ reent f = true) :
    callReentrant reent liv subs = CallResult.deadlock
    ∧ callLockTrace liv subs =
        LockEvent.acquire ::
          ((subs.filter liv).map LockEvent.invoke ++ [LockEvent.release]) := by
  refine ⟨?_, rfl⟩
  obtain ⟨f, hmem, hliv, hre⟩ := h
  induction subs with
  | nil => cases hmem
  | cons g rest ih =>
    rcases List.mem_cons.mp hmem with hg | hg
    · subst hg
      simp [callReentrant, hliv, hre]
    · by_cases hlg : liv g = true
      · by_cases hrg : reent g = true
        · simp [callReentrant, hlg, hrg]
        · simp only [Bool.not_eq_true] at hrg
          simp [callReentrant, hlg, hrg, ih hg]
      · simp only [Bool.not_eq_true] at hlg
        simp [callReentrant, hlg, ih hg]

/-- Concrete instance of `c2_lock_held_across_listeners`: listeners
`[4, 5]`, both live, `5` re-entrant — the call deadlocks. -/
theorem c2_lock_held_across_listeners_witness :
    callReentrant (fun f => decide (f = 5)) (fun _ => true) [4, 5] = CallResult.deadlock :=
  (c2_lock_held_across_listeners (fun f => decide (f = 5)) (fun _ => true) [4, 5]
    ⟨5, by decide, by decide, by decide⟩).1

/-- C3: starting with the guard held (as `initialize` leaves it, hooks.rs
line 57), the tick handler releases the guard immediately before
forwarding to the original tick and reacquires it immediately after, so
a hook re-entered from inside the original call that needs the same
guard acquires it successfully and the handler finishes, guard re-held —
no self-deadlock.  Had the guard still been held at the forwarding
point, the same re-entered hook would deadlock. -/
theorem c3_tick_releases_guard_around_original :
    execTick (tickBody (some reentrantHook)) true = some true
    ∧ execTick (tickBody none) true = some true
    ∧ runInnerHook reentrantHook true = none
    ∧ (∀ m : Nat, tickHandlerModel m m (some reentrantHook) true = TickOutcome.done true) := by
  refine ⟨rfl, rfl, rfl, fun m => ?_⟩
  unfold tickHandlerModel assertMainThread
  rw [if_pos rfl]
  rfl

/-- C8: every `acquire` is paired with exactly one release on every exit
path of the critical section — the guard counters each advance by one
and stay balanced, and the work's outcome (including failure) passes
through unchanged; no failing path leaves the guard held. -/
theorem c8_guard_release_paired (c : LockCounters) (work : WorkExit) :
    (withGuobjectGuard c work).1.acquires = c.acquires + 1
    ∧ (withGuobjectGuard c work).1.releases = c.releases + 1
    ∧ (withGuobjectGuard c work).2 = work
    ∧ (c.acquires = c.releases →
        (withGuobjectGuard c work).1.acquires = (withGuobjectGuard c work).1.releases) := by
  cases work with
  | retOk =>
    exact ⟨rfl, rfl, rfl, fun h => by
      simp [withGuobjectGuard, acquireGuardOp, releaseGuardOp, h]⟩
  | retEarly =>
    exact ⟨rfl, rfl, rfl, fun h => by
      simp [withGuobjectGuard, acquireGuardOp, releaseGuardOp, h]⟩
  | errProp =>
    exact ⟨rfl, rfl, rfl, fun h => by
      simp [withGuobjectGuard, acquireGuardOp, releaseGuardOp, h]⟩
  | panicked =>
    exact ⟨rfl, rfl, rfl, fun h => by
      simp [withGuobjectGuard, acquireGuardOp, releaseGuardOp, h]⟩

/-- Concrete instance of `c8_guard_release_paired`: a panicking critical
section starting from balanced counters ends balanced. -/
theorem c8_guard_release_paired_witness :
    (withGuobjectGuard ⟨2, 2⟩ WorkExit.panicked).1.acquires =
      (withGuobjectGuard ⟨2, 2⟩ WorkExit.panicked).1.releases :=
  (c8_guard_release_paired ⟨2, 2⟩ WorkExit.panicked).2.2.2 rfl

/-- C5 counterexample: with every resolver and every detour step
succeeding but "PrintString" absent from the resolved KismetSystemLibrary
map — an address-resolution failure for that symbol — startup aborts by
panic (`.get("PrintString").unwrap()`, hooks.rs 103–111); the failure is
not propagated to the caller as a structured error. -/
theorem c5_unstructured_print_string_abort_cex :
    patchModel 0 envNoPrint = Outcome.panic
    ∧ isStructuredError (patchModel 0 envNoPrint) = false := by
  constructor
  · rfl
  · rfl

/-- C5 amended: any address-resolution or hook-installation failure
during startup is fatal — `patch` reaches a successful return only when
the resolver, every hook installation, and the PrintString lookup all
succeeded, a resolver failure propagates as the structured error naming
the failed symbol, and an installation failure propagates its error;
except that a missing "PrintString" entry in the already-resolved
KismetSystemLibrary map aborts by panic instead of a propagated
structured error. -/
theorem c5_startup_failures_fatal (t : Nat) (env : HookEnv) :
    (patchModel t env = Outcome.ok →
      (∃ res, env.resolve = Except.ok res
        ∧ res.kismetSystemLibrary.lookup "PrintString" ≠ none)
      ∧ env.installTick = Except.ok () ∧ env.installAlloc = Except.ok ()
      ∧ env.installFree = Except.ok () ∧ env.installPrint = Except.ok ()
      ∧ env.installExecMsg = Except.ok ())
    ∧ (∀ s, env.resolve = Except.error s → patchModel t env = Outcome.err s)
    ∧ (∀ res, env.resolve = Except.ok res →
        env.installTick = Except.ok () → env.installAlloc = Except.ok () →
        env.installFree = Except.ok () →
        res.kismetSystemLibrary.lookup "PrintString" = none →
        patchModel t env = Outcome.panic)
    ∧ (∀ res e, env.resolve = Except.ok res → env.installTick = Except.error e →
        patchModel t env = Outcome.err e) := by
  refine ⟨?_, ?_, ?_, ?_⟩
  · intro hok
    unfold patchModel at hok
    cases hres : env.resolve with
    | error s =>
      rw [hres] at hok
      simp at hok
    | ok res =>
      rw [hres] at hok
      simp only [initializeModel, assertMainThread, if_pos rfl] at hok
      cases h1 : env.installTick with
      | error e => rw [h1] at hok; simp [stepInstall] at hok
      | ok u1 =>
        obtain ⟨⟩ := u1
        rw [h1] at hok
        simp only [stepInstall] at hok
        cases h2 : env.installAlloc with
        | error e => rw [h2] at hok; simp at hok
        | ok u2 =>
          obtain ⟨⟩ := u2
          rw [h2] at hok
          simp only [] at hok
          cases h3 : env.installFree with
          | error e => rw [h3] at hok; simp at hok
          | ok u3 =>
            obtain ⟨⟩ := u3
            rw [h3] at hok
            simp only [] at hok
            cases hp : res.kismetSystemLibrary.lookup "PrintString" with
            | none => rw [hp] at hok; simp at hok
            | some a =>
              rw [hp] at hok
              simp only [] at hok
              cases h4 : env.installPrint with
              | error e => rw [h4] at hok; simp at hok
              | ok u4 =>
                obtain ⟨⟩ := u4
                rw [h4] at hok
                simp only [] at hok
                cases h5 : env.installExecMsg with
                | error e => rw [h5] at hok; simp at hok
                | ok u5 =>
                  obtain ⟨⟩ := u5
                  exact ⟨⟨res, rfl, by rw [hp]; exact fun h => Option.noConfusion h⟩,
                    rfl, rfl, rfl, rfl, rfl⟩
  · intro s hs
    unfold patchModel
    rw [hs]
  · intro res hres h1 h2 h3 hp
    unfold patchModel
    rw [hres]
    simp [initializeModel, assertMainThread, stepInstall, h1, h2, h3, hp]
  · intro res e hres he
    unfold patchModel
    rw [hres]
    simp [initializeModel, assertMainThread, stepInstall, he]

/-- Concrete instances of `c5_startup_failures_fatal`: a resolver
failure for `game_tick` propagates as that structured error, and a
failed tick-hook installation propagates its error. -/
theorem c5_startup_failures_fatal_witness :
    patchModel 0 ⟨Except.error "game_tick", Except.ok (), Except.ok (), Except.ok (),
        Except.ok (), Except.ok ()⟩ = Outcome.err "game_tick"
    ∧ patchModel 0 ⟨Except.ok resOkM, Except.error "detour", Except.ok (), Except.ok (),
        Except.ok (), Except.ok ()⟩ = Outcome.err "detour" :=
  ⟨(c5_startup_failures_fatal 0 ⟨Except.error "game_tick", Except.ok (), Except.ok (),
      Except.ok (), Except.ok (), Except.ok ()⟩).2.1 "game_tick" rfl,
   (c5_startup_failures_fatal 0 ⟨Except.ok resOkM, Except.error "detour", Except.ok (),
      Except.ok (), Except.ok (), Except.ok ()⟩).2.2.2 resOkM "detour" rfl rfl⟩

/-- C9: the two operations that assume main-thread-only invariants —
`hooks::initialize` and the game-tick handler — begin with
`assert_main_thread!`; run from any other thread they terminate by
panic, which is not a structured error returned to the caller. -/
theorem c9_thread_affinity_panics (cur main : Nat) (res : Resolution) (env : HookEnv)
    (inner : Option (List HInstr)) (held : Bool) (h : cur ≠ main) :
    initializeModel cur main res env = Outcome.panic
    ∧ tickHandlerModel cur main inner held = TickOutcome.panicked
    ∧ assertMainThread cur main = ThreadCheck.panicked
    ∧ isStructuredError Outcome.panic = false := by
  have hc : assertMainThread cur main = ThreadCheck.panicked := by
    unfold assertMainThread
    rw [if_neg h]
  refine ⟨?_, ?_, hc, rfl⟩
  · unfold initializeModel
    rw [hc]
  · unfold tickHandlerModel
    rw [hc]

/-- Concrete instance of `c9_thread_affinity_panics`: thread `3` is not
the recorded main thread `0`, so both operations panic. -/
theorem c9_thread_affinity_panics_witness :
    initializeModel 3 0 resOkM envAllOk = Outcome.panic
    ∧ tickHandlerModel 3 0 none true = TickOutcome.panicked :=
  ⟨(c9_thread_affinity_panics 3 0 resOkM envAllOk none true (by decide)).1,
   (c9_thread_affinity_panics 3 0 resOkM envAllOk none true (by decide)).2.1⟩

/-- C7: the PrintString handler's cursor update advances `stack.code` by
exactly one when, and only when, the cursor is non-null; a null cursor
is left unchanged. -/
theorem c7_print_string_cursor_advance (stack : FFrame) :
    (stack.code ≠ 0 → (printStringCursorStep stack).code = stack.code + 1)
    ∧ (stack.code = 0 → printStringCursorStep stack = stack)
    ∧ ((printStringCursorStep stack).code ≠ stack.code → stack.code ≠ 0) := by
  refine ⟨?_, ?_, ?_⟩
  · intro h
    unfold printStringCursorStep
    rw [if_pos h]
  · intro h
    unfold printStringCursorStep
    rw [if_neg (by simp [h])]
  · intro hne
    intro h0
    apply hne
    unfold printStringCursorStep
    rw [if_neg (by simp [h0])]

/-- Concrete instances of `c7_print_string_cursor_advance`: a non-null
cursor `41` advances to `42`; the null cursor stays put. -/
theorem c7_print_string_cursor_advance_witness :
    (printStringCursorStep ⟨41⟩).code = 41 + 1
    ∧ printStringCursorStep ⟨0⟩ = (⟨0⟩ : FFrame) :=
  ⟨(c7_print_string_cursor_advance ⟨41⟩).1 (by decide),
   (c7_print_string_cursor_advance ⟨0⟩).2.1 rfl⟩

/-- C10: `globals()` and `guobject_array()` panic (unwrap of `None`)
before `patch` has populated `GLOBALS`; after it has, every read returns
that same context, and no operation other than `patch`'s one-time write
changes the `GLOBALS` static — the resolution table and recorded main
thread never change again. -/
theorem c10_globals_set_once (g : GlobalsM) (st st2 : ProgState) (op : ProgOp)
    (hnp : ∀ res tid, op ≠ ProgOp.patchOp res tid) :
    globalsFn none = GlobalsRead.panicNone
    ∧ guobjectArrayFn none = GlobalsRead.panicNone
    ∧ globalsFn (some g) = GlobalsRead.value g
    ∧ guobjectArrayFn (some g) = GlobalsRead.value g
    ∧ (stepGlobals op st = some st2 → st2.globals = st.globals)
    ∧ (∀ res tid, stepGlobals (ProgOp.patchOp res tid) st =
        some { st with globals := some ⟨res, tid⟩ }) := by
  refine ⟨rfl, rfl, rfl, rfl, ?_, fun _ _ => rfl⟩
  intro hstep
  cases op with
  | patchOp res tid => exact absurd rfl (hnp res tid)
  | tickOp =>
    simp only [stepGlobals] at hstep
    cases hg : st.globals with
    | none => rw [hg] at hstep; simp at hstep
    | some g0 =>
      rw [hg] at hstep
      simp only [] at hstep
      have h2 := Option.some.inj hstep
      rw [← h2]
  | allocHookOp => exact congrArg ProgState.globals (Option.some.inj hstep).symm
  | freeHookOp => exact congrArg ProgState.globals (Option.some.inj hstep).symm
  | printHookOp => exact congrArg ProgState.globals (Option.some.inj hstep).symm
  | execMsgHookOp => exact congrArg ProgState.globals (Option.some.inj hstep).symm
  | registerOp l => exact congrArg ProgState.globals (Option.some.inj hstep).symm
  | callOp => exact congrArg ProgState.globals (Option.some.inj hstep).symm

/-- Concrete instance of `c10_globals_set_once`: a tick after `patch`
leaves the stored context — and with it the resolution table and the
main-thread identity — unchanged. -/
theorem c10_globals_set_once_witness :
    (⟨some ⟨resOkM, 0⟩, true⟩ : ProgState).globals =
      (⟨some ⟨resOkM, 0⟩, false⟩ : ProgState).globals :=
  (c10_globals_set_once ⟨resOkM, 0⟩ ⟨some ⟨resOkM, 0⟩, false⟩ ⟨some ⟨resOkM, 0⟩, true⟩
      ProgOp.tickOp (fun _ _ h => ProgOp.noConfusion h)).2.2.2.2.1 rfl

/-- Every created event in the trace directly follows the completion of
the original allocation for the same reference. -/
theorem hookTrace_created_after_origAlloc (ops : List HostOp) :
    ∀ (r : Nat) (t1 t2 : List ObjEvent),
      hookTrace ops = t1 ++ ObjEvent.created r :: t2 →
      ∃ t0, t1 = t0 ++ [ObjEvent.origAlloc r] := by
  induction ops with
  | nil =>
    intro r t1 t2 heq
    exact absurd heq (by cases t1 <;> simp [hookTrace])
  | cons op rest ih =>
    intro r t1 t2 heq
    cases op with
    | alloc s =>
      match t1, heq with
      | [], heq =>
        rw [hookTrace] at heq
        simp at heq
      | [x], heq =>
        rw [hookTrace] at heq
        simp at heq
        obtain ⟨hx, hy, _⟩ := heq
        exact ⟨[], by simp [← hx, hy]⟩
      | x :: y :: t1e, heq =>
        rw [hookTrace] at heq
        simp at heq
        obtain ⟨hx, hy, hrest⟩ := heq
        obtain ⟨t0, ht0⟩ := ih r t1e t2 hrest
        exact ⟨x :: y :: t0, by simp [ht0]⟩
    | free s =>
      match t1, heq with
      | [], heq =>
        rw [hookTrace] at heq
        simp at heq
      | [x], heq =>
        rw [hookTrace] at heq
        simp at heq
      | x :: y :: t1e, heq =>
        rw [hookTrace] at heq
        simp at heq
        obtain ⟨hx, hy, hrest⟩ := heq
        obtain ⟨t0, ht0⟩ := ih r t1e t2 hrest
        exact ⟨x :: y :: t0, by simp [ht0]⟩

/-- Every deleted event in the trace is directly followed by the run of
the original free for the same reference. -/
theorem hookTrace_deleted_before_origFree (ops : List HostOp) :
    ∀ (r : Nat) (t1 t2 : List ObjEvent),
      hookTrace ops = t1 ++ ObjEvent.deleted r :: t2 →
      ∃ t2e, t2 = ObjEvent.origFree r :: t2e := by
  induction ops with
  | nil =>
    intro r t1 t2 heq
    exact absurd heq (by cases t1 <;> simp [hookTrace])
  | cons op rest ih =>
    intro r t1 t2 heq
    cases op with
    | alloc s =>
      match t1, heq with
      | [], heq =>
        rw [hookTrace] at heq
        simp at heq
      | [x], heq =>
        rw [hookTrace] at heq
        simp at heq
      | x :: y :: t1e, heq =>
        rw [hookTrace] at heq
        simp at heq
        exact ih r t1e t2 heq.2.2
    | free s =>
      match t1, heq with
      | [], heq =>
        rw [hookTrace] at heq
        simp at heq
        exact ⟨hookTrace rest, by rw [← heq.2, heq.1]⟩
      | [x], heq =>
        rw [hookTrace] at heq
        simp at heq
      | x :: y :: t1e, heq =>
        rw [hookTrace] at heq
        simp at heq
        exact ih r t1e t2 heq.2.2

/-- Under the allocator contract (the host frees only references it
allocated, beyond those in `A`), every deleted event is preceded in the
trace by the created event of the same reference, unless the reference
was allocated before tracing began (`r ∈ A`). -/
theorem hookTrace_deleted_after_created (ops : List HostOp) :
    ∀ (A : List Nat) (r : Nat) (t1 t2 : List ObjEvent), wfFrom A ops = true →
      hookTrace ops = t1 ++ ObjEvent.deleted r :: t2 →
      r ∈ A ∨ ObjEvent.created r ∈ t1 := by
  induction ops with
  | nil =>
    intro A r t1 t2 _ heq
    exact absurd heq (by cases t1 <;> simp [hookTrace])
  | cons op rest ih =>
    intro A r t1 t2 hwf heq
    cases op with
    | alloc s =>
      rw [wfFrom] at hwf
      match t1, heq with
      | [], heq =>
        rw [hookTrace] at heq
        simp at heq
      | [x], heq =>
        rw [hookTrace] at heq
        simp at heq
      | x :: y :: t1e, heq =>
        rw [hookTrace] at heq
        simp at heq
        obtain ⟨hx, hy, hrest⟩ := heq
        rcases ih (s :: A) r t1e t2 hwf hrest with hA | hmem
        · rcases List.mem_cons.mp hA with hrs | hrA
          · subst hrs
            right
            rw [hy]
            exact List.mem_cons_of_mem x (List.mem_cons_self _ _)
          · exact Or.inl hrA
        · right
          exact List.mem_cons_of_mem x (List.mem_cons_of_mem y hmem)
    | free s =>
      rw [wfFrom, Bool.and_eq_true] at hwf
      match t1, heq with
      | [], heq =>
        rw [hookTrace] at heq
        simp at heq
        left
        rw [← heq.1]
        simpa using hwf.1
      | [x], heq =>
        rw [hookTrace] at heq
        simp at heq
      | x :: y :: t1e, heq =>
        rw [hookTrace] at heq
        simp at heq
        obtain ⟨hx, hy, hrest⟩ := heq
        rcases ih A r t1e t2 hwf.2 hrest with hA | hmem
        · exact Or.inl hA
        · right
          exact List.mem_cons_of_mem x (List.mem_cons_of_mem y hmem)

/-- C6: in the trace the allocate/free handlers produce, every created
event directly follows the completed original allocation of its object;
every deleted event directly precedes the original free of its object;
and when the host respects the allocator contract, every deleted event is
strictly preceded by the created event of the same reference — so no
deleted event is published for an object never created. -/
theorem c6_object_event_ordering (ops : List HostOp) (r : Nat) :
    (∀ t1 t2, hookTrace ops = t1 ++ ObjEvent.created r :: t2 →
      ∃ t0, t1 = t0 ++ [ObjEvent.origAlloc r])
    ∧ (∀ t1 t2, hookTrace ops = t1 ++ ObjEvent.deleted r :: t2 →
      ∃ t2e, t2 = ObjEvent.origFree r :: t2e)
    ∧ (wfFrom [] ops = true →
      (∀ t1 t2, hookTrace ops = t1 ++ ObjEvent.deleted r :: t2 →
        ObjEvent.created r ∈ t1)
      ∧ (ObjEvent.deleted r ∈ hookTrace ops → ObjEvent.created r ∈ hookTrace ops)) := by
  refine ⟨fun t1 t2 => hookTrace_created_after_origAlloc ops r t1 t2,
    fun t1 t2 => hookTrace_deleted_before_origFree ops r t1 t2, fun hwf => ⟨?_, ?_⟩⟩
  · intro t1 t2 heq
    rcases hookTrace_deleted_after_created ops [] r t1 t2 hwf heq with hA | hmem
    · cases hA
    · exact hmem
  · intro hmem
    obtain ⟨t1, t2, heq⟩ := List.append_of_mem hmem
    rcases hookTrace_deleted_after_created ops [] r t1 t2 hwf heq with hA | hin
    · cases hA
    · rw [heq]
      exact List.mem_append_left _ hin

/-- Concrete instance of `c6_object_event_ordering`: the host allocates
reference `1` then frees it; the deleted event is preceded by the created
event in the published trace. -/
theorem c6_object_event_ordering_witness :
    ObjEvent.created 1 ∈ [ObjEvent.origAlloc 1, ObjEvent.created 1]
    ∧ ObjEvent.created 1 ∈ hookTrace [HostOp.alloc 1, HostOp.free 1] :=
  ⟨((c6_object_event_ordering [HostOp.alloc 1, HostOp.free 1] 1).2.2 (by decide)).1
      [ObjEvent.origAlloc 1, ObjEvent.created 1] [ObjEvent.origFree 1] rfl,
   ((c6_object_event_ordering [HostOp.alloc 1, HostOp.free 1] 1).2.2 (by decide)).2
      (by decide)⟩

end DllHook
